import Mathlib

/-
  Verification development for the logwatch core engine
  (src/logwatch_core.py): timestamp extraction, pattern-set
  compilation and matching, file-cursor tracking, datetime-range
  filtering, reindexing, incremental checking, persistence
  round-trips, and the background directory scanner.

  Strings from the program are modelled as List Char; Python byte
  offsets coincide with character counts for the ASCII content the
  claims exercise.  File modification times are only stored and
  compared for equality, so they are modelled as Int.
-/

namespace LogWatch

/-- Lowercased ASCII code of a character; models the effect of
re.IGNORECASE on the ASCII patterns the program uses. -/
def lowerCode (c : Char) : Nat :=
  if 65 ≤ c.toNat ∧ c.toNat ≤ 90 then c.toNat + 32 else c.toNat

/-- ASCII digit test, models the regex class backslash-d on ASCII input. -/
def isDigitCh (c : Char) : Bool :=
  48 ≤ c.toNat && c.toNat ≤ 57

/-- Numeric value of an ASCII digit. -/
def digitVal (c : Char) : Nat := c.toNat - 48

/-- Python whitespace characters recognised by str.strip and the
regex class backslash-s (ASCII subset). -/
def isPySpace (c : Char) : Bool :=
  c == ' ' || c == '\t' || c == '\n' || c == '\r' || c == '\x0b' || c == '\x0c'

/-! ## A small regex engine

`MultiLogWatcher.set_error_patterns` compiles each configured pattern
with `re.compile(..., re.IGNORECASE)`: the whole string when it starts
with a caret, `re.escape` of it otherwise.  The engine below covers the
regex subset those compiled patterns can use: literal characters
(possibly backslash-escaped), the dot wildcard, the star repetition,
and a leading caret anchor.  Constructs outside this subset are
rejected by the parser with a distinguished `unsupported` marker (they
are valid Python regexes the model does not translate). -/

/-- A single-character matcher. -/
inductive RAtom where
  | rchar (c : Char)
  | dot
deriving DecidableEq, Repr

/-- A regex element: an atom matched once, or a starred atom. -/
inductive RItem where
  | once (a : RAtom)
  | star (a : RAtom)
deriving DecidableEq, Repr

/-- Does atom `a` match character `c` under IGNORECASE?  The dot does
not match a newline (the program never sets DOTALL). -/
def matchAtom : RAtom → Char → Bool
  | .rchar d, c => lowerCode c == lowerCode d
  | .dot, c => c != '\n'

/-- Matching for a starred atom: after consuming any number of
characters matched by `a`, the continuation `k` (the rest of the
pattern) must accept the remainder.  Only the existence of a match
matters for search, so greedy and lazy repetition coincide. -/
def matchStar (a : RAtom) (k : List Char → Bool) : List Char → Bool
  | [] => k []
  | c :: cs => k (c :: cs) || (matchAtom a c && matchStar a k cs)

/-- Does some prefix of `cs` match the item list?  This is the
"match at this position" step of Python re.search. -/
def matchItems : List RItem → List Char → Bool
  | [], _ => true
  | .once a :: rest, cs =>
      (match cs with
       | [] => false
       | c :: cs2 => matchAtom a c && matchItems rest cs2)
  | .star a :: rest, cs => matchStar a (matchItems rest) cs

/-- Unanchored search: try to match at every start position, left to
right, as Python re.search does. -/
def searchFrom (items : List RItem) : List Char → Bool
  | [] => matchItems items []
  | c :: cs => matchItems items (c :: cs) || searchFrom items cs

/-- A compiled pattern: an optional leading-caret anchor and the
element list. -/
structure CRegex where
  anchored : Bool
  items : List RItem
deriving DecidableEq, Repr

/-- Python pattern.search(line) as a Bool: anchored patterns must match
at the start, others anywhere. -/
def regexSearch (r : CRegex) (line : List Char) : Bool :=
  if r.anchored then matchItems r.items line else searchFrom r.items line

/-- The characters Python re.escape prefixes with a backslash. -/
def reSpecialChars : List Char :=
  ['(', ')', '[', ']', '\x7b', '\x7d', '?', '*', '+', '-', '|', '^', '$',
   '\\', '.', '&', '~', '#', ' ', '\t', '\n', '\r', '\x0b', '\x0c']

/-- Model of Python re.escape on a character list. -/
def reEscape : List Char → List Char
  | [] => []
  | c :: cs => if c ∈ reSpecialChars then '\\' :: c :: reEscape cs else c :: reEscape cs

/-- Outcome of compiling a pattern string.  The first two are genuine
Python re.error cases; `unsupported` marks regex syntax outside the
modelled subset. -/
inductive ReError where
  | nothingToRepeat
  | multipleRepeat
  | unsupported
deriving DecidableEq, Repr

/-- Characters with special meaning in the regex syntax (when not
escaped). -/
def regexSpecial : List Char :=
  ['.', '*', '+', '?', '(', ')', '[', ']', '\x7b', '\x7d', '|', '^', '$', '\\']

def isOrdinaryCh (c : Char) : Bool := !(regexSpecial.contains c)

/-- Translate one unescaped pattern character into an atom. -/
def atomOf (c : Char) : Except ReError RAtom :=
  if c == '.' then .ok .dot
  else if isOrdinaryCh c then .ok (.rchar c)
  else .error .unsupported

/-- Parse the body of a pattern (after any leading caret) into regex
items.  A star with no preceding atom and a doubled star reproduce the
corresponding Python re.error conditions. -/
def parseItems : List Char → Except ReError (List RItem)
  | [] => .ok []
  | '*' :: _ => .error .nothingToRepeat
  | '\\' :: [] => .error .unsupported
  | '\\' :: d :: '*' :: '*' :: _ =>
      if d.isAlphanum then .error .unsupported else .error .multipleRepeat
  | '\\' :: d :: '*' :: rest =>
      if d.isAlphanum then .error .unsupported
      else (parseItems rest).map (fun items => RItem.star (RAtom.rchar d) :: items)
  | '\\' :: d :: rest =>
      if d.isAlphanum then .error .unsupported
      else (parseItems rest).map (fun items => RItem.once (RAtom.rchar d) :: items)
  | c :: '*' :: '*' :: _ =>
      (match atomOf c with
       | .ok _ => .error .multipleRepeat
       | .error e => .error e)
  | c :: '*' :: rest =>
      (match atomOf c with
       | .ok a => (parseItems rest).map (fun items => RItem.star a :: items)
       | .error e => .error e)
  | c :: rest =>
      (match atomOf c with
       | .ok a => (parseItems rest).map (fun items => RItem.once a :: items)
       | .error e => .error e)

/-- Does the pattern string start with a caret? -/
def startsCaret : List Char → Bool
  | '^' :: _ => true
  | _ => false

/-- Compile one pattern string the way set_error_patterns does:
a leading caret means "compile as regex", anything else is escaped
first and therefore matches literally. -/
def compilePatternStr (p : List Char) : Except ReError CRegex :=
  match p with
  | '^' :: rest => (parseItems rest).map (fun items => CRegex.mk true items)
  | _ => (parseItems (reEscape p)).map (fun items => CRegex.mk false items)

/-- Case-insensitive "pat is a prefix of cs". -/
def icStarts : List Char → List Char → Bool
  | [], _ => true
  | _ :: _, [] => false
  | d :: ds, c :: cs => (lowerCode c == lowerCode d) && icStarts ds cs

/-- Case-insensitive substring containment, stated by quantifying over
all start offsets.  This is the specification-side meaning of a
literal (escaped) pattern. -/
def containsCI (cs pat : List Char) : Bool :=
  (List.range (cs.length + 1)).any (fun i => icStarts pat (cs.drop i))

/-! ## Timestamp extraction

`parse_log_timestamp` tries an ordered list of (regex, converter)
pairs.  Each regex here is transcribed into a deterministic prefix
matcher over its fixed shape (digit runs, separators), and the
converter models the `datetime(...)` constructor, whose ValueError on
out-of-range fields the source catches. -/

/-- A naive datetime as the Python datetime constructor stores it. -/
structure PDateTime where
  year : Nat
  month : Nat
  day : Nat
  hour : Nat
  minute : Nat
  second : Nat
deriving DecidableEq, Repr

/-- Gregorian leap-year rule used by the datetime module. -/
def isLeapYear (y : Nat) : Bool :=
  y % 4 == 0 && (y % 100 != 0 || y % 400 == 0)

def daysInMonth (y m : Nat) : Nat :=
  if m == 2 then (if isLeapYear y then 29 else 28)
  else if m == 4 || m == 6 || m == 9 || m == 11 then 30
  else 31

/-- The Python datetime constructor: some value on valid fields, none
models the ValueError raised on out-of-range fields. -/
def mkDatetime (y mo d h mi s : Nat) : Option PDateTime :=
  if 1 ≤ y && y ≤ 9999 && 1 ≤ mo && mo ≤ 12 && 1 ≤ d && d ≤ daysInMonth y mo
     && h ≤ 23 && mi ≤ 59 && s ≤ 59
  then some ⟨y, mo, d, h, mi, s⟩ else none

/-- Chronological strict order on datetimes; Python compares them
field-lexicographically. -/
def dtLt (a b : PDateTime) : Bool :=
  a.year < b.year || (a.year == b.year &&
    (a.month < b.month || (a.month == b.month &&
      (a.day < b.day || (a.day == b.day &&
        (a.hour < b.hour || (a.hour == b.hour &&
          (a.minute < b.minute || (a.minute == b.minute &&
            a.second < b.second)))))))))

/-- Read exactly `n` ASCII digits, returning their value and the rest. -/
def readDigitsAux : Nat → Nat → List Char → Option (Nat × List Char)
  | 0, acc, cs => some (acc, cs)
  | _ + 1, _, [] => none
  | n + 1, acc, c :: cs =>
      if isDigitCh c then readDigitsAux n (acc * 10 + digitVal c) cs else none

def readDigits (n : Nat) (cs : List Char) : Option (Nat × List Char) :=
  readDigitsAux n 0 cs

/-- Consume a date separator, the dash-or-slash class in the source patterns. -/
def readDateSep : List Char → Option (List Char)
  | c :: cs => if c == '-' || c == '/' then some cs else none
  | [] => none

/-- Consume one exact character. -/
def readChar (x : Char) : List Char → Option (List Char)
  | c :: cs => if c == x then some cs else none
  | [] => none

/-- Consume the class [T backslash-s]: a literal T or a whitespace. -/
def readTSep : List Char → Option (List Char)
  | c :: cs => if c == 'T' || isPySpace c then some cs else none
  | [] => none

/-- Consume backslash-s-plus: one or more whitespace characters.
Greedy consumption is exact here because the next pattern element is
always a digit, never a whitespace. -/
def readSpaces1 : List Char → Option (List Char)
  | c :: cs => if isPySpace c then some (cs.dropWhile isPySpace) else none
  | [] => none

/-- The ISO datetime pattern:
four digits, dash-or-slash, two digits, dash-or-slash, two digits, T-or-space,
two digits, colon, two digits, colon, two digits. -/
def isoDateTimeAt (cs0 : List Char) : Option (List Nat) := do
  let (y, cs1) ← readDigits 4 cs0
  let cs2 ← readDateSep cs1
  let (mo, cs3) ← readDigits 2 cs2
  let cs4 ← readDateSep cs3
  let (d, cs5) ← readDigits 2 cs4
  let cs6 ← readTSep cs5
  let (h, cs7) ← readDigits 2 cs6
  let cs8 ← readChar ':' cs7
  let (mi, cs9) ← readDigits 2 cs8
  let cs10 ← readChar ':' cs9
  let (s, _) ← readDigits 2 cs10
  pure [y, mo, d, h, mi, s]

/-- The ISO date-only pattern: four digits, dash-or-slash, two digits,
dash-or-slash, two digits. -/
def isoDateAt (cs0 : List Char) : Option (List Nat) := do
  let (y, cs1) ← readDigits 4 cs0
  let cs2 ← readDateSep cs1
  let (mo, cs3) ← readDigits 2 cs2
  let cs4 ← readDateSep cs3
  let (d, _) ← readDigits 2 cs4
  pure [y, mo, d]

/-- The US datetime pattern: two digits, dash-or-slash, two digits,
dash-or-slash, four digits, whitespace-plus, then the time groups. -/
def usDateTimeAt (cs0 : List Char) : Option (List Nat) := do
  let (mo, cs1) ← readDigits 2 cs0
  let cs2 ← readDateSep cs1
  let (d, cs3) ← readDigits 2 cs2
  let cs4 ← readDateSep cs3
  let (y, cs5) ← readDigits 4 cs4
  let cs6 ← readSpaces1 cs5
  let (h, cs7) ← readDigits 2 cs6
  let cs8 ← readChar ':' cs7
  let (mi, cs9) ← readDigits 2 cs8
  let cs10 ← readChar ':' cs9
  let (s, _) ← readDigits 2 cs10
  pure [mo, d, y, h, mi, s]

/-- The bracketed ISO pattern: a literal opening bracket followed by
the ISO datetime shape. -/
def bracketIsoAt (cs0 : List Char) : Option (List Nat) := do
  let cs1 ← readChar '[' cs0
  isoDateTimeAt cs1

/-- Python re.search over a prefix matcher: try every start position
from the left, return the first success. -/
def searchPos (f : List Char → Option (List Nat)) : List Char → Option (List Nat)
  | [] => f []
  | c :: cs =>
      match f (c :: cs) with
      | some g => some g
      | none => searchPos f cs

/-- The ordered (pattern, converter) list TIMESTAMP_PATTERNS.  A
converter returns none both for out-of-range fields (ValueError) and
for a group list of unexpected shape (IndexError); the source catches
both and moves on. -/
def TIMESTAMP_PATTERNS : List ((List Char → Option (List Nat)) × (List Nat → Option PDateTime)) :=
  [ (isoDateTimeAt, fun g =>
      match g with
      | [y, mo, d, h, mi, s] => mkDatetime y mo d h mi s
      | _ => none),
    (isoDateAt, fun g =>
      match g with
      | [y, mo, d] => mkDatetime y mo d 0 0 0
      | _ => none),
    (usDateTimeAt, fun g =>
      match g with
      | [mo, d, y, h, mi, s] => mkDatetime y mo d h mi s
      | _ => none),
    (bracketIsoAt, fun g =>
      match g with
      | [y, mo, d, h, mi, s] => mkDatetime y mo d h mi s
      | _ => none) ]

/-- The loop body of parse_log_timestamp: first pattern that both
matches by search and converts successfully wins; a conversion
failure falls through to the next pattern. -/
def tryTimestampPatterns :
    List ((List Char → Option (List Nat)) × (List Nat → Option PDateTime)) →
    List Char → Option PDateTime
  | [], _ => none
  | (pat, conv) :: rest, line =>
      match searchPos pat line with
      | none => tryTimestampPatterns rest line
      | some g =>
          match conv g with
          | some dt => some dt
          | none => tryTimestampPatterns rest line

/-- parse_log_timestamp: extract a timestamp from a log line, or none. -/
def parse_log_timestamp (line : List Char) : Option PDateTime :=
  tryTimestampPatterns TIMESTAMP_PATTERNS line

/-! ## Association-list model of Python dicts

Lookup finds the first binding; update rewrites the first binding in
place or appends a new one, matching dict insertion-order semantics. -/

def alookup {κ α : Type} [DecidableEq κ] : List (κ × α) → κ → Option α
  | [], _ => none
  | (k, v) :: m, key => if k = key then some v else alookup m key

def aset {κ α : Type} [DecidableEq κ] : List (κ × α) → κ → α → List (κ × α)
  | [], key, v => [(key, v)]
  | (k, w) :: m, key, v =>
      if k = key then (k, v) :: m else (k, w) :: aset m key v

/-- Keep the first occurrence of each path, as iterating a Python set
built from them yields each path once. -/
def dedupPaths : List String → List String
  | [] => []
  | x :: xs => x :: (dedupPaths xs).filter (fun y => y ≠ x)

/-! ## The watcher state and file system model -/

/-- One entry of the per-file matched-line deque:
(line number, stripped text, optional timestamp, matched patterns). -/
structure MatchedLine where
  line_num : Nat
  text : List Char
  timestamp : Option PDateTime
  matched_patterns : List (List Char)
deriving DecidableEq, Repr

/-- The mutable fields of MultiLogWatcher that the claims concern. -/
structure WatcherState where
  file_positions : List (String × (Nat × Int))
  file_error_counts : List (String × Nat)
  file_matched_lines : List (String × List MatchedLine)
  pattern_to_files : List (List Char × List String)
  error_patterns : List CRegex
  pattern_strings : List (List Char)
  start_datetime : Option PDateTime
  end_datetime : Option PDateTime
  watch_dirs : List String
  watch_files : List String
deriving DecidableEq

def emptyWatcher : WatcherState :=
  ⟨[], [], [], [], [], [], none, none, [], []⟩

/-- A file on disk: its content and its modification time.  Its size
is the content length. -/
structure FileData where
  content : List Char
  mtime : Int
deriving DecidableEq, Repr, Inhabited

/-- The file system: a map from path to file data. -/
abbrev FS := List (String × FileData)

/-- A match event delivered to the watcher callback. -/
structure MatchEvent where
  name : String
  path : String
  line_num : Nat
  text : List Char
  matched_patterns : List (List Char)
deriving DecidableEq, Repr

/-! ## Pattern-set configuration -/

/-- An element of the configured pattern list: a plain string or a
dict carrying the pattern under its pattern key. -/
inductive PatternInput where
  | str (s : List Char)
  | pdict (title : Option (List Char)) (pat : List Char)
deriving DecidableEq

/-- The pattern string set_error_patterns extracts from one input. -/
def patternStrOf : PatternInput → List Char
  | .str s => s
  | .pdict _ p => p

/-- The body of set_error_patterns: skip empty pattern strings,
compile each remaining one, keep compiled patterns and their raw
strings in order.  An error from re.compile propagates (the source has
no handler around it), so the whole call fails at the first invalid
pattern. -/
def setErrorPatternsAux : List PatternInput → Except ReError (List CRegex × List (List Char))
  | [] => .ok ([], [])
  | p :: ps =>
      let s := patternStrOf p
      if s.isEmpty then setErrorPatternsAux ps
      else
        match compilePatternStr s with
        | .error e => .error e
        | .ok r =>
            match setErrorPatternsAux ps with
            | .error e => .error e
            | .ok (rs, ss) => .ok (r :: rs, s :: ss)

/-- set_error_patterns on a watcher state. -/
def set_error_patterns (w : WatcherState) (ps : List PatternInput) :
    Except ReError WatcherState :=
  (setErrorPatternsAux ps).map
    (fun rs => { w with error_patterns := rs.1, pattern_strings := rs.2 })

/-- DEFAULT_ERROR_PATTERNS from the source: five titled literals. -/
def DEFAULT_ERROR_PATTERNS : List PatternInput :=
  [ .pdict (some (("Exceptions").toList)) (("exception").toList),
    .pdict (some (("Errors").toList)) (("error").toList),
    .pdict (some (("Tracebacks").toList)) (("traceback").toList),
    .pdict (some (("Failures").toList)) (("failed").toList),
    .pdict (some (("Critical").toList)) (("critical").toList) ]

/-- _count_matches: walk the compiled patterns in order; each pattern
that search-matches the line contributes one to the count and its raw
string to the matched list.  (The source indexes pattern_strings in
parallel with error_patterns; states produced by set_error_patterns
always keep the two lists the same length.) -/
def count_matches : List CRegex → List (List Char) → List Char → Nat × List (List Char)
  | [], _, _ => (0, [])
  | _ :: _, [], _ => (0, [])
  | r :: rs, s :: ss, line =>
      let rec_result := count_matches rs ss line
      if regexSearch r line then (rec_result.1 + 1, s :: rec_result.2)
      else rec_result

/-! ## Datetime filtering -/

/-- Is the line before the configured start?  (False when no start is
configured; a datetime object is always truthy in Python.) -/
def beforeStart (w : WatcherState) (t : PDateTime) : Bool :=
  match w.start_datetime with
  | some s => dtLt t s
  | none => false

/-- Is the line after the configured end? -/
def afterEnd (w : WatcherState) (t : PDateTime) : Bool :=
  match w.end_datetime with
  | some e => dtLt e t
  | none => false

/-- _is_in_datetime_range: lines with no parseable timestamp are
included by default; otherwise the timestamp must not fall strictly
before the start nor strictly after the end. -/
def is_in_datetime_range (w : WatcherState) : Option PDateTime → Bool
  | none => true
  | some t => !(beforeStart w t) && !(afterEnd w t)

/-! ## Line splitting and stripping -/

/-- Helper for splitLinesKeep; the accumulator holds the current line
reversed. -/
def splitLinesKeepAux (acc : List Char) : List Char → List (List Char)
  | [] => if acc.isEmpty then [] else [acc.reverse]
  | c :: cs =>
      if c == '\n' then (c :: acc).reverse :: splitLinesKeepAux [] cs
      else splitLinesKeepAux (c :: acc) cs

/-- Iterating an open text file line by line: each yielded line keeps
its trailing newline; a final fragment without a newline is yielded
too. -/
def splitLinesKeep (cs : List Char) : List (List Char) :=
  splitLinesKeepAux [] cs

/-- Helper for splitlinesPy. -/
def splitlinesPyAux (acc : List Char) : List Char → List (List Char)
  | [] => if acc.isEmpty then [] else [acc.reverse]
  | '\r' :: '\n' :: cs => acc.reverse :: splitlinesPyAux [] cs
  | c :: cs =>
      if c == '\n' || c == '\r' then acc.reverse :: splitlinesPyAux [] cs
      else splitlinesPyAux (c :: acc) cs

/-- str.splitlines: line terminators are removed; CRLF counts as one
terminator.  (The exotic Unicode terminators Python also recognises
are not modelled.) -/
def splitlinesPy (cs : List Char) : List (List Char) :=
  splitlinesPyAux [] cs

/-- str.strip(): remove leading and trailing whitespace. -/
def pyStrip (cs : List Char) : List Char :=
  ((cs.dropWhile isPySpace).reverse.dropWhile isPySpace).reverse

/-- Path(filepath).name: the component after the last slash. -/
def baseNameL (p : List Char) : List Char :=
  (p.reverse.takeWhile (fun c => c ≠ '/')).reverse

/-- The directory part of a path (no trailing slash). -/
def dirNameL (p : List Char) : List Char :=
  match p.reverse.dropWhile (fun c => c ≠ '/') with
  | '/' :: d => d.reverse
  | _ => []

def baseName (p : String) : String := String.mk (baseNameL p.toList)

/-- Does the path end in ".log"? -/
def endsWithLog (p : List Char) : Bool :=
  match p.reverse with
  | 'g' :: 'o' :: 'l' :: '.' :: _ => true
  | _ => false

/-! ## Matched-line bookkeeping -/

def MAX_MATCHED_LINES_PER_FILE : Nat := 50

/-- Appending to a deque with maxlen: when full, the oldest entry is
evicted. -/
def dequeAppend (buf : List MatchedLine) (e : MatchedLine) : List MatchedLine :=
  let b := buf ++ [e]
  b.drop (b.length - MAX_MATCHED_LINES_PER_FILE)

/-- Add a path to a set of files (Python set.add, modelled as an
append-if-absent list). -/
def listInsert (l : List String) (x : String) : List String :=
  if l.contains x then l else l ++ [x]

/-- _add_matched_line: append the entry (with stripped text) to the
file's deque and record the file under each matched pattern. -/
def add_matched_line (w : WatcherState) (path : String) (line_num : Nat)
    (line_text : List Char) (ts : Option PDateTime) (mp : List (List Char)) :
    WatcherState :=
  let buf := (alookup w.file_matched_lines path).getD []
  let buf2 := dequeAppend buf ⟨line_num, pyStrip line_text, ts, mp⟩
  let ptf := mp.foldl
    (fun m ps => aset m ps (listInsert ((alookup m ps).getD []) path))
    w.pattern_to_files
  { w with file_matched_lines := aset w.file_matched_lines path buf2,
           pattern_to_files := ptf }

/-- Clear the matched-line deque of a file if it has one (the source
guards the clear with a membership test). -/
def clearBufferIfPresent (w : WatcherState) (path : String) : WatcherState :=
  if (alookup w.file_matched_lines path).isSome
  then { w with file_matched_lines := aset w.file_matched_lines path [] }
  else w

/-- Discard the file from every pattern's file set, keeping empty
sets (as the loops in the indexing paths do). -/
def discardFromAllPatterns (w : WatcherState) (path : String) : WatcherState :=
  { w with pattern_to_files :=
      w.pattern_to_files.map (fun kv => (kv.1, kv.2.filter (fun f => f ≠ path))) }

/-! ## Full indexing: _count_errors_in_file and reindex_all_files -/

/-- The loop body of _count_errors_in_file over one line. -/
def processIndexLine (w : WatcherState) (path : String) (acc : Nat)
    (line_num : Nat) (line : List Char) : WatcherState × Nat :=
  let mcp := count_matches w.error_patterns w.pattern_strings line
  if mcp.1 > 0 then
    let ts := parse_log_timestamp line
    if is_in_datetime_range w ts then
      (add_matched_line w path line_num line ts mcp.2, acc + mcp.1)
    else (w, acc)
  else (w, acc)

/-- The line loop of _count_errors_in_file: line numbers start at 1. -/
def processIndexLines : WatcherState → String → Nat → Nat → List (List Char) →
    WatcherState × Nat
  | w, _, acc, _, [] => (w, acc)
  | w, path, acc, ln, l :: ls =>
      let st := processIndexLine w path acc ln l
      processIndexLines st.1 path st.2 (ln + 1) ls

/-- _count_errors_in_file: count all pattern matches in a file from
the beginning, rebuilding its matched-line deque, then store the total
and set the cursor to the end of file. -/
def count_errors_in_file (fs : FS) (w : WatcherState) (path : String) : WatcherState :=
  match alookup fs path with
  | none => w
  | some fd =>
      let current_size := fd.content.length
      let current_mtime := fd.mtime
      let w1 := clearBufferIfPresent w path
      let w2 := discardFromAllPatterns w1 path
      let st := processIndexLines w2 path 0 1 (splitLinesKeep fd.content)
      { st.1 with
        file_error_counts := aset st.1.file_error_counts path st.2,
        file_positions := aset st.1.file_positions path (current_size, current_mtime) }

/-- Path.glob over a watched directory for star-dot-log: the files of
the file system directly inside the directory whose name ends in
".log". -/
def globLog (fs : FS) (dir : String) : List String :=
  (fs.map Prod.fst).filter
    (fun p => (dirNameL p.toList == dir.toList) && endsWithLog (baseNameL p.toList))

/-- The set of files reindex/check-all operations visit: the globbed
contents of each watched directory plus the indexed files,
de-duplicated. -/
def watcherFilesToCheck (fs : FS) (w : WatcherState) : List String :=
  dedupPaths ((w.watch_dirs.map (globLog fs)).flatten ++ w.watch_files)

/-- reindex_all_files: reset every count and cursor, then run
_count_errors_in_file over each watched file. -/
def reindex_all_files (fs : FS) (w : WatcherState) : WatcherState :=
  let files := watcherFilesToCheck fs w
  let w1 := { w with file_error_counts := [], file_positions := [] }
  files.foldl (fun acc p => count_errors_in_file fs acc p) w1

/-! ## Accessors and persistence -/

def get_error_count (w : WatcherState) (path : String) : Nat :=
  (alookup w.file_error_counts path).getD 0

def get_total_error_count (w : WatcherState) : Nat :=
  (w.file_error_counts.map Prod.snd).sum

def get_matched_lines (w : WatcherState) (path : String) : List MatchedLine :=
  (alookup w.file_matched_lines path).getD []

/-- One entry of the persisted snapshot. -/
structure FileStateEntry where
  position : Nat
  mtime : Int
  error_count : Nat
deriving DecidableEq, Repr

/-- Keys of both per-file maps, each once. -/
def unionKeys (a b : List String) : List String := dedupPaths (a ++ b)

/-- The snapshot entry get_file_state records for a path: its saved
position and mtime (with the dict-get default (0, 0)) and its error
count (default 0). -/
def snapshotEntry (w : WatcherState) (p : String) : FileStateEntry :=
  let pm := (alookup w.file_positions p).getD (0, 0)
  ⟨pm.1, pm.2, (alookup w.file_error_counts p).getD 0⟩

/-- get_file_state: snapshot position, mtime and count for every path
known to either map, with missing positions read as (0, 0) and a
missing count as 0. -/
def get_file_state (w : WatcherState) : List (String × FileStateEntry) :=
  (unionKeys (w.file_positions.map Prod.fst) (w.file_error_counts.map Prod.fst)).map
    (fun p => (p, snapshotEntry w p))

/-- restore_file_state: write every snapshot entry back into the two
maps. -/
def restore_file_state (w : WatcherState) (st : List (String × FileStateEntry)) :
    WatcherState :=
  st.foldl
    (fun acc kv =>
      { acc with
        file_positions := aset acc.file_positions kv.1 (kv.2.position, kv.2.mtime),
        file_error_counts := aset acc.file_error_counts kv.1 kv.2.error_count })
    w

/-! ## Incremental checking: _check_file -/

/-- The count update inside the check loop: initialise to 0 when the
key is missing, then add the line's match count. -/
def bumpCount (w : WatcherState) (path : String) (mc : Nat) : WatcherState :=
  { w with
    file_error_counts :=
      aset w.file_error_counts path ((alookup w.file_error_counts path).getD 0 + mc) }

/-- The per-line loop of _check_file over the newly read content:
each qualifying line bumps the count, is appended to the deque, and
produces a callback event. -/
def processCheckLines : WatcherState → String → Nat → List (List Char) →
    WatcherState × List MatchEvent
  | w, _, _, [] => (w, [])
  | w, path, ln, l :: ls =>
      let mcp := count_matches w.error_patterns w.pattern_strings l
      if mcp.1 > 0 then
        let ts := parse_log_timestamp l
        if is_in_datetime_range w ts then
          let w2 := bumpCount w path mcp.1
          let w3 := add_matched_line w2 path ln l ts mcp.2
          let rest := processCheckLines w3 path (ln + 1) ls
          (rest.1, ⟨baseName path, path, ln, pyStrip l, mcp.2⟩ :: rest.2)
        else processCheckLines w path (ln + 1) ls
      else processCheckLines w path (ln + 1) ls

/-- _check_file: read the bytes added since the saved cursor and scan
them.  First sight of a path only records the end of file; an
unchanged file is a no-op; a shrunken file is treated as
rotated/truncated (cursor back to 0 and deque cleared) and re-read in
full. -/
def check_file (fs : FS) (w : WatcherState) (path : String) :
    WatcherState × List MatchEvent :=
  match alookup fs path with
  | none => (w, [])
  | some fd =>
      let current_size := fd.content.length
      let current_mtime := fd.mtime
      match alookup w.file_positions path with
      | none =>
          let w1 := { w with
            file_positions := aset w.file_positions path (current_size, current_mtime) }
          let w2 :=
            if (alookup w1.file_error_counts path).isSome then w1
            else { w1 with file_error_counts := aset w1.file_error_counts path 0 }
          (w2, [])
      | some pm =>
          if current_mtime == pm.2 && current_size == pm.1 then (w, [])
          else
            let truncated := current_size < pm.1
            let last_position := if truncated then 0 else pm.1
            let w1 := if truncated then clearBufferIfPresent w path else w
            if current_size == last_position then (w1, [])
            else
              let content_before := fd.content.take last_position
              let start_line_num := content_before.countP (fun c => c == '\n') + 1
              let new_content := fd.content.drop last_position
              let w2 := { w1 with
                file_positions := aset w1.file_positions path (current_size, current_mtime) }
              processCheckLines w2 path start_line_num (splitlinesPy new_content)

/-! ## The background scanner: LogScanner._scan_loop

The scan thread is modelled cooperatively: the running flag that
stop() clears asynchronously becomes a countdown of how many flag
checks still observe true.  Filesystem errors that the source catches
per entry are modelled as broken entries and denied directories.  An
exception escaping to _scan_loop's try (only user callbacks can raise
there) is modelled by truncating the emitted callback trace at the
point of the raising invocation; the finally block then still fires
the done callback. -/

/-- A callback invocation made by the scanner. -/
inductive ScanEvent where
  | progressEv
  | foundEv (path : String)
  | doneEv (total : Nat)
deriving DecidableEq, Repr

def isFoundEv : ScanEvent → Bool
  | .foundEv _ => true
  | _ => false

def isDoneEv : ScanEvent → Bool
  | .doneEv _ => true
  | _ => false

def countFound (evs : List ScanEvent) : Nat := evs.countP isFoundEv

/-- A directory entry as the walk sees it. -/
inductive FsEntry where
  | ffile (path : String) (isLog : Bool)
  | fbroken (path : String)
  | fdir (name : String) (denied : Bool) (entries : List FsEntry)
deriving Repr

/-- Directories the walk skips by name. -/
def skipDirName (name : String) : Bool :=
  (match name.toList with
   | '.' :: _ => true
   | _ => false)
  || name == "node_modules" || name == "__pycache__" || name == "venv"
  || name == ".git"

/-- Scanner walk state: how many running-flag checks still see true
(none meaning stop is never requested), the found counter, and the
emitted callback invocations (newest first). -/
structure ScanSt where
  checksLeft : Option Nat
  found : Nat
  events : List ScanEvent

/-- Consult the running flag once. -/
def checkRunning (s : ScanSt) : Bool × ScanSt :=
  match s.checksLeft with
  | none => (true, s)
  | some 0 => (false, s)
  | some (n + 1) => (true, { s with checksLeft := some n })

mutual
/-- The per-entry body of the _scan_directory loop, with the per-entry
exception swallowing. -/
def scanEntry : FsEntry → ScanSt → ScanSt
  | .ffile path isLog, s =>
      if isLog then
        { s with found := s.found + 1, events := .foundEv path :: s.events }
      else s
  | .fbroken _, s => s
  | .fdir name denied entries, s =>
      if skipDirName name then s
      else if denied then s
      else scanDirectoryM entries s

/-- The entry loop of _scan_directory: the running flag is checked
before each entry. -/
def scanDirEntries : List FsEntry → ScanSt → ScanSt
  | [], s => s
  | e :: es, s =>
      let rs := checkRunning s
      if rs.1 then scanDirEntries es (scanEntry e rs.2) else rs.2

/-- _scan_directory on a directory's entries: check the running flag,
report progress, then walk the entries. -/
def scanDirectoryM (entries : List FsEntry) (s : ScanSt) : ScanSt :=
  let rs := checkRunning s
  if rs.1 then
    scanDirEntries entries ⟨rs.2.checksLeft, rs.2.found, .progressEv :: rs.2.events⟩
  else rs.2
end

/-- _scan_loop: the initial progress report and the walk of the root
(with `cut` = some k modelling an exception escaping after the k-th
callback invocation), then — in the finally block — the done callback
with the found count. -/
def scan_loop (rootEntries : List FsEntry) (budget : Option Nat) (cut : Option Nat) :
    List ScanEvent :=
  let s1 := scanDirectoryM rootEntries ⟨budget, 0, [ScanEvent.progressEv]⟩
  let walkEvents := s1.events.reverse
  let kept :=
    match cut with
    | none => walkEvents
    | some k => walkEvents.take k
  -- found_count at the time the finally block runs: the full counter
  -- on normal completion or early stop; at an exception, the counter
  -- has advanced exactly with the invocations that happened.
  let total :=
    match cut with
    | none => s1.found
    | some _ => countFound kept
  kept ++ [ScanEvent.doneEv total]

/-! ## Concrete configurations used by the claims -/

def compiledDefaults : List CRegex × List (List Char) :=
  match setErrorPatternsAux DEFAULT_ERROR_PATTERNS with
  | .ok r => r
  | .error _ => ([], [])

def c1Path : String := "/logs/app.log"

def c1Content : List Char :=
  ("INFO\nDEBUG\nERROR Failed to connect\nINFO\nCRITICAL System shutdown\n").toList

def c1FS : FS := [(c1Path, ⟨c1Content, 100⟩)]

def c1Watcher : WatcherState :=
  { emptyWatcher with
    error_patterns := compiledDefaults.1,
    pattern_strings := compiledDefaults.2,
    watch_dirs := [("/logs")] }

def c4Start : PDateTime := ⟨2024, 1, 10, 0, 0, 0⟩

def c4End : PDateTime := ⟨2024, 1, 20, 0, 0, 0⟩

def c4Watcher : WatcherState :=
  { emptyWatcher with start_datetime := some c4Start, end_datetime := some c4End }

def c6Pats : List CRegex × List (List Char) :=
  match setErrorPatternsAux [.str (("error").toList)] with
  | .ok r => r
  | .error _ => ([], [])

/-- How much one line contributes to the error count in the check
loop: its per-pattern match count when positive and in range. -/
def lineDelta (w : WatcherState) (l : List Char) : Nat :=
  let mcp := count_matches w.error_patterns w.pattern_strings l
  if mcp.1 > 0 then
    (if is_in_datetime_range w (parse_log_timestamp l) then mcp.1 else 0)
  else 0

/-- Total count added by the check loop over a list of lines. -/
def linesMatchTotal (w : WatcherState) (ls : List (List Char)) : Nat :=
  (ls.map (lineDelta w)).sum

/-- The matched-line entries the check loop appends for the given
lines, with line numbers from `n`. -/
def checkEntries (w : WatcherState) : Nat → List (List Char) → List MatchedLine
  | _, [] => []
  | n, l :: ls =>
      let mcp := count_matches w.error_patterns w.pattern_strings l
      if mcp.1 > 0 then
        (if is_in_datetime_range w (parse_log_timestamp l) then
          ⟨n, pyStrip l, parse_log_timestamp l, mcp.2⟩ :: checkEntries w (n + 1) ls
        else checkEntries w (n + 1) ls)
      else checkEntries w (n + 1) ls

def c2Path : String := "/logs/rotated.log"

def c2File : FileData := ⟨("INFO plain line\n").toList, 2⟩

def c2FS : FS := [(c2Path, c2File)]

def c2Watcher : WatcherState :=
  { emptyWatcher with
    error_patterns := compiledDefaults.1,
    pattern_strings := compiledDefaults.2,
    file_positions := [(c2Path, (100, 1))],
    file_error_counts := [(c2Path, 5)],
    file_matched_lines := [(c2Path, [⟨1, ("old line").toList, none, []⟩])] }

/-! ## Claim C4: datetime filter boundary inclusivity -/

/-- C4: with the filter set to start 2024-01-10 00:00:00 and end
2024-01-20 00:00:00, a line timestamp equal to either boundary is
included; a timestamp strictly before the start or strictly after the
end is excluded; a timestamp neither before the start nor after the
end is included; and a line whose timestamp could not be parsed is
always included. -/
theorem C4_datetime_filter_boundaries :
    is_in_datetime_range c4Watcher (some c4Start) = true ∧
    is_in_datetime_range c4Watcher (some c4End) = true ∧
    (∀ t : PDateTime, dtLt t c4Start = true →
      is_in_datetime_range c4Watcher (some t) = false) ∧
    (∀ t : PDateTime, dtLt c4End t = true →
      is_in_datetime_range c4Watcher (some t) = false) ∧
    (∀ t : PDateTime, dtLt t c4Start = false → dtLt c4End t = false →
      is_in_datetime_range c4Watcher (some t) = true) ∧
    is_in_datetime_range c4Watcher none = true := by
  have hrange : ∀ t : PDateTime,
      is_in_datetime_range c4Watcher (some t) = (!(dtLt t c4Start) && !(dtLt c4End t)) :=
    fun t => rfl
  refine ⟨by decide, by decide, ?_, ?_, ?_, rfl⟩
  · intro t h
    rw [hrange, h]
    rfl
  · intro t h
    rw [hrange, h]
    simp
  · intro t h1 h2
    rw [hrange, h1, h2]
    rfl

/-- Closed instances of C4's quantified parts: one day before the
start is excluded, one day after the end is excluded, a mid-range
timestamp is included. -/
theorem C4_witness :
    is_in_datetime_range c4Watcher (some ⟨2024, 1, 9, 23, 59, 59⟩) = false ∧
    is_in_datetime_range c4Watcher (some ⟨2024, 1, 21, 0, 0, 0⟩) = false ∧
    is_in_datetime_range c4Watcher (some ⟨2024, 1, 15, 12, 0, 0⟩) = true :=
  ⟨C4_datetime_filter_boundaries.2.2.1 _ (by decide),
   C4_datetime_filter_boundaries.2.2.2.1 _ (by decide),
   C4_datetime_filter_boundaries.2.2.2.2.1 _ (by decide) (by decide)⟩

/-! ## Claim C6: match counting is per-pattern -/

/-- C6: for pattern and string lists of equal length (the invariant
set_error_patterns maintains), _count_matches returns the number of
patterns that match the line at least once together with the matched
pattern strings in configured order — multiple occurrences of one
pattern in a line contribute a single count; in particular the
single pattern "error" on the line "error error error" counts 1. -/
theorem C6_count_is_per_pattern :
    (∀ (rs : List CRegex) (ss : List (List Char)) (line : List Char),
      rs.length = ss.length →
      count_matches rs ss line
        = (((rs.zip ss).filter (fun p => regexSearch p.1 line)).length,
           ((rs.zip ss).filter (fun p => regexSearch p.1 line)).map Prod.snd)) ∧
    count_matches c6Pats.1 c6Pats.2 (("error error error").toList)
      = (1, [("error").toList]) := by
  constructor
  · intro rs
    induction rs with
    | nil =>
        intro ss line _
        simp [count_matches]
    | cons r rs ih =>
        intro ss line hlen
        cases ss with
        | nil => simp at hlen
        | cons s ss =>
            have hlen2 : rs.length = ss.length := by
              simpa using hlen
            simp only [count_matches, List.zip_cons_cons, List.filter]
            rw [ih ss line hlen2]
            cases hr : regexSearch r line <;> simp [hr, List.zip]
  · decide

/-- Closed instance of C6's quantified part at the default pattern
set and a line matching two of the five patterns. -/
theorem C6_witness :
    count_matches compiledDefaults.1 compiledDefaults.2
        (("ERROR Failed to connect").toList)
      = ((((compiledDefaults.1.zip compiledDefaults.2).filter
            (fun p => regexSearch p.1 (("ERROR Failed to connect").toList))).length),
         (((compiledDefaults.1.zip compiledDefaults.2).filter
            (fun p => regexSearch p.1 (("ERROR Failed to connect").toList))).map
           Prod.snd)) :=
  C6_count_is_per_pattern.1 _ _ _ (by decide)

/-! ## Claim C7: invalid regex patterns raise to the caller -/

/-- C7: whenever some supplied pattern string starts with a caret and
fails to compile, set_error_patterns itself returns that failure
(raises) instead of swallowing it. -/
theorem C7_invalid_regex_raises :
    ∀ ps : List PatternInput,
      (∃ p ∈ ps, startsCaret (patternStrOf p) = true ∧
        ∃ e, compilePatternStr (patternStrOf p) = .error e) →
      ∃ e, setErrorPatternsAux ps = .error e := by
  intro ps
  induction ps with
  | nil =>
      rintro ⟨p, hp, -⟩
      cases hp
  | cons q qs ih =>
      rintro ⟨p, hp, hcaret, e, he⟩
      by_cases hq : (patternStrOf q).isEmpty
      · have hpq : p ∈ qs := by
          rcases List.mem_cons.mp hp with h | h
          · subst h
            rw [List.isEmpty_iff.mp hq] at hcaret
            cases hcaret
          · exact h
        obtain ⟨e2, he2⟩ := ih ⟨p, hpq, hcaret, e, he⟩
        refine ⟨e2, ?_⟩
        simp only [setErrorPatternsAux, hq, if_true]
        exact he2
      · rcases hr : compilePatternStr (patternStrOf q) with e0 | r
        · refine ⟨e0, ?_⟩
          simp only [setErrorPatternsAux, hq, if_false, hr]
          simp
        · have hpq : p ∈ qs := by
            rcases List.mem_cons.mp hp with h | h
            · subst h
              rw [he] at hr
              cases hr
            · exact h
          obtain ⟨e2, he2⟩ := ih ⟨p, hpq, hcaret, e, he⟩
          refine ⟨e2, ?_⟩
          simp only [setErrorPatternsAux, hq, if_false, hr, he2]
          simp

/-- Closed instance of C7: the pattern caret-star is a Python
re.error ("nothing to repeat"), and set_error_patterns on a list
containing it fails. -/
theorem C7_witness :
    ∃ e, setErrorPatternsAux
        [.pdict none (("error").toList), .str (("^*").toList)] = .error e :=
  C7_invalid_regex_raises _
    ⟨.str (("^*").toList), by simp, rfl, ReError.nothingToRepeat, rfl⟩

/-! ## Claim C1: the five-line reindex scenario

The third line "ERROR Failed to connect" matches TWO of the default
patterns — "error" (case-insensitive substring of "ERROR") as well as
"failed" — and the fifth line matches "critical", so the total match
count after reindex_all_files is 3, not the claimed 2.  The
matched-line deque does hold exactly 2 entries (lines 3 and 5). -/

/-- C1 counterexample: with the watched directory holding exactly
app.log with the five scenario lines and the five default patterns
compiled, the claimed outcome (total error count 2 with 2 buffered
lines) is false on the code. -/
theorem C1_counterexample :
    ¬ (get_total_error_count (reindex_all_files c1FS c1Watcher) = 2 ∧
       (get_matched_lines (reindex_all_files c1FS c1Watcher) c1Path).length = 2) :=
  fun h => absurd h.1 (by decide)

/-- C1 amended: the same scenario yields a total error count of 3
(lines 3 and 5 contribute 2 and 1 pattern matches respectively) and
exactly 2 entries — for lines 3 and 5 — in the file's matched-line
buffer. -/
theorem C1_reindex_scenario :
    get_total_error_count (reindex_all_files c1FS c1Watcher) = 3 ∧
    (get_matched_lines (reindex_all_files c1FS c1Watcher) c1Path).length = 2 ∧
    (get_matched_lines (reindex_all_files c1FS c1Watcher) c1Path).map
        (fun e => e.line_num) = [3, 5] := by
  refine ⟨by decide, by decide, by decide⟩

/-! ## Claim C5: literal versus regex pattern dichotomy

The lemmas show that compiling a caret-free pattern — which the source
does by escaping it first — produces a matcher whose search is exactly
case-insensitive substring containment. -/

/-- Every re.escape special character is non-alphanumeric, so an
escaped pair always denotes a literal character. -/
theorem reSpecial_not_alphanum : ∀ c ∈ reSpecialChars, c.isAlphanum = false := by decide

/-- Every regex-special character is among the escaped ones. -/
theorem regexSpecial_sub : ∀ c ∈ regexSpecial, c ∈ reSpecialChars := by decide

/-- An unescaped character compiles to its literal atom. -/
theorem atomOf_ordinary (c : Char) (hc : c ∉ reSpecialChars) :
    atomOf c = .ok (.rchar c) := by
  have h1 : c ∉ regexSpecial := fun h => hc (regexSpecial_sub c h)
  have h2 : (c == '.') = false := by
    simp only [beq_eq_false_iff_ne, ne_eq]
    intro he
    exact hc (he ▸ (by decide))
  have h3 : regexSpecial.contains c = false := by simpa using h1
  simp [atomOf, h2, isOrdinaryCh, h3, h1]

theorem reEscape_eq_nil (cs : List Char) (h : reEscape cs = []) : cs = [] := by
  cases cs with
  | nil => rfl
  | cons a as =>
      by_cases ha : a ∈ reSpecialChars <;> simp [reEscape, ha] at h

/-- An escaped string never starts with a bare star. -/
theorem reEscape_ne_star_cons (cs : List Char) (rt : List Char) :
    reEscape cs ≠ '*' :: rt := by
  cases cs with
  | nil => simp [reEscape]
  | cons a as =>
      by_cases ha : a ∈ reSpecialChars
      · simp [reEscape, ha]
      · simp only [reEscape, if_neg ha]
        intro h
        have h1 : a = '*' := (List.cons_eq_cons.mp h).1
        exact ha (h1 ▸ (by decide))

theorem reEscape_head_ne_star (cs : List Char) (r0 : Char) (rt : List Char)
    (h : reEscape cs = r0 :: rt) : r0 ≠ '*' := by
  intro hx
  rw [hx] at h
  exact reEscape_ne_star_cons cs rt h

/-- Every re.escape output parses back into the literal atoms of the
original characters: escaping protects every special character. -/
theorem parseItems_reEscape (p : List Char) :
    parseItems (reEscape p) = .ok (p.map (fun c => RItem.once (RAtom.rchar c))) := by
  induction p with
  | nil => rfl
  | cons c cs ih =>
      by_cases hc : c ∈ reSpecialChars
      · have hre : reEscape (c :: cs) = '\\' :: c :: reEscape cs := by
          simp [reEscape, hc]
        have hna : c.isAlphanum = false := reSpecial_not_alphanum c hc
        rw [hre]
        cases hecs : reEscape cs with
        | nil =>
            have hnil := reEscape_eq_nil cs hecs
            subst hnil
            simp [parseItems, hna, Except.map]
        | cons r0 rt =>
            have hr0 : r0 ≠ '*' := reEscape_head_ne_star cs r0 rt hecs
            rw [hecs] at ih
            simp [parseItems, hna, hr0, ih, Except.map]
      · have hre : reEscape (c :: cs) = c :: reEscape cs := by
          simp [reEscape, hc]
        have hat : atomOf c = .ok (.rchar c) := atomOf_ordinary c hc
        have hcs : c ≠ '*' := fun he => hc (he ▸ (by decide))
        have hcb : c ≠ '\\' := fun he => hc (he ▸ (by decide))
        rw [hre]
        cases hecs : reEscape cs with
        | nil =>
            have hnil := reEscape_eq_nil cs hecs
            subst hnil
            simp [parseItems, hcs, hcb, hat, Except.map]
        | cons r0 rt =>
            have hr0 : r0 ≠ '*' := reEscape_head_ne_star cs r0 rt hecs
            rw [hecs] at ih
            simp [parseItems, hcs, hcb, hr0, hat, ih, Except.map]

/-- Matching a list of literal atoms at a position is exactly a
case-insensitive prefix test. -/
theorem matchItems_literal (p : List Char) :
    ∀ cs, matchItems (p.map (fun c => RItem.once (RAtom.rchar c))) cs = icStarts p cs := by
  induction p with
  | nil => intro cs; cases cs <;> rfl
  | cons d ds ih =>
      intro cs
      cases cs with
      | nil => rfl
      | cons c cs2 => simp [matchItems, icStarts, matchAtom, ih]

/-- Peeling one character off the searched string in the range-based
containment predicate. -/
theorem containsCI_cons (c : Char) (cs p : List Char) :
    containsCI (c :: cs) p = (icStarts p (c :: cs) || containsCI cs p) := by
  unfold containsCI
  rw [List.length_cons, List.range_succ_eq_map, List.any_cons, List.any_map]
  have h2 : ((fun i => icStarts p (List.drop i (c :: cs))) ∘ Nat.succ)
      = (fun i => icStarts p (List.drop i cs)) := by
    funext i
    rfl
  rw [h2, List.drop_zero]

/-- Search with a literal (escaped) pattern is case-insensitive
substring containment. -/
theorem searchFrom_literal (p : List Char) :
    ∀ cs, searchFrom (p.map (fun c => RItem.once (RAtom.rchar c))) cs = containsCI cs p := by
  intro cs
  induction cs with
  | nil =>
      simp [searchFrom, containsCI, matchItems_literal, List.range_succ]
  | cons c cs2 ih =>
      rw [searchFrom, matchItems_literal, ih, containsCI_cons]

/-- C5: a configured pattern that does not start with a caret is
escaped and compiled into a matcher whose search is exactly
case-insensitive literal substring containment; a caret pattern is
compiled as a regex and evaluated by search.  Concretely, the literal
pattern "[ERROR]" matches the line "[ERROR] foo" but not "ERROR foo",
and the regex pattern caret-ERROR-dot-star-timeout matches
"ERROR: Connection timeout" but not "WARNING: Connection timeout". -/
theorem C5_literal_vs_regex :
    (∀ p : List Char, startsCaret p = false →
      ∃ items, compilePatternStr p = .ok (CRegex.mk false items) ∧
        ∀ line : List Char,
          regexSearch (CRegex.mk false items) line = containsCI line p) ∧
    ((compilePatternStr (("[ERROR]").toList)).toOption).map
      (fun r => regexSearch r (("[ERROR] foo").toList)) = some true ∧
    ((compilePatternStr (("[ERROR]").toList)).toOption).map
      (fun r => regexSearch r (("ERROR foo").toList)) = some false ∧
    ((compilePatternStr (("^ERROR.*timeout").toList)).toOption).map
      (fun r => regexSearch r (("ERROR: Connection timeout").toList)) = some true ∧
    ((compilePatternStr (("^ERROR.*timeout").toList)).toOption).map
      (fun r => regexSearch r (("WARNING: Connection timeout").toList)) = some false := by
  refine ⟨?_, by decide, by decide, by decide, by decide⟩
  intro p hp
  refine ⟨p.map (fun c => RItem.once (RAtom.rchar c)), ?_, ?_⟩
  · cases p with
    | nil => rfl
    | cons c rest =>
        by_cases hc : c = '^'
        · subst hc
          cases hp
        · have : compilePatternStr (c :: rest)
              = (parseItems (reEscape (c :: rest))).map
                  (fun items => CRegex.mk false items) := by
            simp [compilePatternStr, hc]
          rw [this, parseItems_reEscape]
          rfl
  · intro line
    rw [regexSearch]
    simp only [if_neg (by simp : ¬(CRegex.mk false _).anchored = true)]
    exact searchFrom_literal p line

/-- Closed instance of C5's quantified part: the literal pattern
"[ERROR]" compiles, and its search on "ERROR foo" equals substring
containment there. -/
theorem C5_witness :
    ∃ items, compilePatternStr (("[ERROR]").toList) = .ok (CRegex.mk false items) ∧
      ∀ line : List Char,
        regexSearch (CRegex.mk false items) line = containsCI line (("[ERROR]").toList) :=
  C5_literal_vs_regex.1 (("[ERROR]").toList) rfl

/-! ## Claim C8: ordered timestamp matchers with fall-through -/

/-- C8: the timestamp extractor returns the value of the first
(pattern, converter) pair — in the configured order — whose pattern
search-matches the line and whose conversion succeeds, and none when
no pair does; a conversion failure is caught and the next pair is
tried.  Concretely, on "2024-01-15 99:30:45" the ISO datetime pattern
matches but hour 99 fails conversion, and the date-only pattern then
produces midnight of 2024-01-15; on "2024-99-15 12:30:45" every
matching pattern fails conversion and the result is none. -/
theorem C8_ordered_matchers_fall_through :
    (∀ line : List Char,
      parse_log_timestamp line
        = TIMESTAMP_PATTERNS.findSome? (fun pc => (searchPos pc.1 line).bind pc.2)) ∧
    (searchPos isoDateTimeAt (("2024-01-15 99:30:45").toList)
        = some [2024, 1, 15, 99, 30, 45] ∧
     mkDatetime 2024 1 15 99 30 45 = none ∧
     parse_log_timestamp (("2024-01-15 99:30:45").toList)
        = some ⟨2024, 1, 15, 0, 0, 0⟩) ∧
    parse_log_timestamp (("2024-99-15 12:30:45").toList) = none := by
  refine ⟨?_, ⟨by decide, by decide, by decide⟩, by decide⟩
  intro line
  show tryTimestampPatterns TIMESTAMP_PATTERNS line = _
  generalize TIMESTAMP_PATTERNS = ps
  induction ps with
  | nil => rfl
  | cons pc rest ih =>
      obtain ⟨pat, conv⟩ := pc
      rw [tryTimestampPatterns]
      cases hs : searchPos pat line with
      | none => simp [List.findSome?, hs, ih]
      | some g =>
          cases hc : conv g with
          | none => simp [List.findSome?, hs, hc, ih]
          | some dt => simp [List.findSome?, hs, hc]

/-! ## Association-map lemmas (for the persistence round trip) -/

theorem alookup_aset_self {κ α : Type} [DecidableEq κ] (m : List (κ × α)) (k : κ) (v : α) :
    alookup (aset m k v) k = some v := by
  induction m with
  | nil => simp [aset, alookup]
  | cons kv m ih =>
      obtain ⟨k1, v1⟩ := kv
      by_cases h : k1 = k <;> simp [aset, alookup, h, ih]

theorem alookup_aset_ne {κ α : Type} [DecidableEq κ] (m : List (κ × α)) (k k2 : κ) (v : α)
    (h : k ≠ k2) : alookup (aset m k v) k2 = alookup m k2 := by
  induction m with
  | nil => simp [aset, alookup, h]
  | cons kv m ih =>
      obtain ⟨k1, v1⟩ := kv
      by_cases h1 : k1 = k
      · subst h1
        simp [aset, alookup, h]
      · by_cases h2 : k1 = k2
        · subst h2
          simp [aset, alookup, h1]
        · simp [aset, alookup, h1, h2, ih]

theorem alookup_eq_none_of_not_mem {κ α : Type} [DecidableEq κ] (m : List (κ × α)) (k : κ)
    (h : k ∉ m.map Prod.fst) : alookup m k = none := by
  induction m with
  | nil => rfl
  | cons kv m ih =>
      obtain ⟨k1, v1⟩ := kv
      simp only [List.map_cons, List.mem_cons] at h
      push_neg at h
      have hne : ¬k1 = k := fun he => h.1 he.symm
      simp [alookup, hne, ih h.2]

theorem mem_of_alookup_eq_some {κ α : Type} [DecidableEq κ] (m : List (κ × α)) (k : κ) (v : α)
    (h : alookup m k = some v) : k ∈ m.map Prod.fst := by
  induction m with
  | nil => cases h
  | cons kv m ih =>
      obtain ⟨k1, v1⟩ := kv
      by_cases h1 : k1 = k
      · simp [h1]
      · rw [alookup, if_neg h1] at h
        simp [ih h]

theorem mem_keys_aset {κ α : Type} [DecidableEq κ] (m : List (κ × α)) (k key : κ) (v : α) :
    key ∈ (aset m k v).map Prod.fst ↔ key ∈ m.map Prod.fst ∨ key = k := by
  induction m with
  | nil => simp [aset]
  | cons kv m ih =>
      obtain ⟨k1, v1⟩ := kv
      by_cases h : k1 = k
      · subst h
        simp [aset]
        tauto
      · simp [aset, h, ih]
        tauto

theorem mem_dedupPaths (l : List String) (x : String) : x ∈ dedupPaths l ↔ x ∈ l := by
  induction l with
  | nil => simp [dedupPaths]
  | cons a as ih =>
      simp [dedupPaths, List.mem_filter, ih, List.mem_cons]
      tauto

theorem nodup_dedupPaths (l : List String) : (dedupPaths l).Nodup := by
  induction l with
  | nil => simp [dedupPaths]
  | cons a as ih =>
      rw [dedupPaths, List.nodup_cons]
      refine ⟨fun h => ?_, ih.filter _⟩
      have h2 := (List.mem_filter.mp h).2
      simp at h2

theorem mem_unionKeys (a b : List String) (x : String) :
    x ∈ unionKeys a b ↔ x ∈ a ∨ x ∈ b := by
  simp [unionKeys, mem_dedupPaths]

theorem alookup_map_keys {α : Type} (keys : List String) (f : String → α) (k : String) :
    alookup (keys.map (fun p => (p, f p))) k
      = if k ∈ keys then some (f k) else none := by
  induction keys with
  | nil => simp [alookup]
  | cons a ks ih =>
      by_cases h : a = k
      · subst h
        simp [alookup]
      · simp only [List.map_cons, alookup, if_neg h, ih, List.mem_cons]
        have : ¬k = a := fun he => h he.symm
        simp [this]

theorem keys_get_file_state (w : WatcherState) :
    (get_file_state w).map Prod.fst
      = unionKeys (w.file_positions.map Prod.fst) (w.file_error_counts.map Prod.fst) := by
  rw [get_file_state, List.map_map]
  have hcomp : (Prod.fst ∘ fun p : String => (p, snapshotEntry w p)) = fun p => p := rfl
  rw [hcomp]
  exact List.map_id' _

theorem alookup_get_file_state (w : WatcherState) (k : String) :
    alookup (get_file_state w) k
      = if k ∈ unionKeys (w.file_positions.map Prod.fst)
               (w.file_error_counts.map Prod.fst)
        then some (snapshotEntry w k) else none := by
  rw [get_file_state]
  exact alookup_map_keys _ _ k

/-- Unfolding restore_file_state over a cons. -/
theorem restore_file_state_cons (w : WatcherState) (k1 : String) (e1 : FileStateEntry)
    (st : List (String × FileStateEntry)) :
    restore_file_state w ((k1, e1) :: st)
      = restore_file_state
          { w with
            file_positions := aset w.file_positions k1 (e1.position, e1.mtime),
            file_error_counts := aset w.file_error_counts k1 e1.error_count } st := rfl

/-- Lookups in the two per-file maps after a restore: a path bound in
the (key-distinct) snapshot reads back its snapshot values, any other
path is untouched. -/
theorem restore_lookups (st : List (String × FileStateEntry)) :
    ∀ (w : WatcherState) (k : String), (st.map Prod.fst).Nodup →
      (alookup (restore_file_state w st).file_positions k
        = (match alookup st k with
           | some e => some (e.position, e.mtime)
           | none => alookup w.file_positions k)) ∧
      (alookup (restore_file_state w st).file_error_counts k
        = (match alookup st k with
           | some e => some e.error_count
           | none => alookup w.file_error_counts k)) := by
  induction st with
  | nil => intro w k _; exact ⟨rfl, rfl⟩
  | cons kv st ih =>
      intro w k hnd
      obtain ⟨k1, e1⟩ := kv
      rw [List.map_cons, List.nodup_cons] at hnd
      rw [restore_file_state_cons]
      obtain ⟨ih1, ih2⟩ := ih _ k hnd.2
      by_cases hk : k1 = k
      · subst hk
        have hnone : alookup st k1 = none :=
          alookup_eq_none_of_not_mem _ _ hnd.1
        rw [hnone] at ih1 ih2
        refine ⟨?_, ?_⟩
        · rw [ih1]
          simp [alookup, alookup_aset_self]
        · rw [ih2]
          simp [alookup, alookup_aset_self]
      · refine ⟨?_, ?_⟩
        · rw [ih1]
          cases hs : alookup st k with
          | some e => simp [alookup, hk, hs]
          | none => simp [alookup, hk, hs, alookup_aset_ne _ _ _ _ hk]
        · rw [ih2]
          cases hs : alookup st k with
          | some e => simp [alookup, hk, hs]
          | none => simp [alookup, hk, hs, alookup_aset_ne _ _ _ _ hk]

/-- Key membership in the two per-file maps after a restore. -/
theorem restore_mem_keys (st : List (String × FileStateEntry)) :
    ∀ (w : WatcherState) (k : String),
      (k ∈ (restore_file_state w st).file_positions.map Prod.fst
        ↔ k ∈ w.file_positions.map Prod.fst ∨ k ∈ st.map Prod.fst) ∧
      (k ∈ (restore_file_state w st).file_error_counts.map Prod.fst
        ↔ k ∈ w.file_error_counts.map Prod.fst ∨ k ∈ st.map Prod.fst) := by
  induction st with
  | nil => intro w k; simp [restore_file_state]
  | cons kv st ih =>
      intro w k
      obtain ⟨k1, e1⟩ := kv
      rw [restore_file_state_cons]
      obtain ⟨ih1, ih2⟩ := ih
        { w with
          file_positions := aset w.file_positions k1 (e1.position, e1.mtime),
          file_error_counts := aset w.file_error_counts k1 e1.error_count } k
      constructor
      · rw [ih1, mem_keys_aset]
        simp only [List.map_cons, List.mem_cons]
        tauto
      · rw [ih2, mem_keys_aset]
        simp only [List.map_cons, List.mem_cons]
        tauto

/-- C10: restoring a snapshot taken from the same watcher and
snapshotting again reproduces the first snapshot as a map (every
lookup agrees); and a path known only through its error count is
snapshotted with position 0 and mtime 0. -/
theorem C10_file_state_roundtrip :
    (∀ (w : WatcherState) (k : String),
      alookup (get_file_state (restore_file_state w (get_file_state w))) k
        = alookup (get_file_state w) k) ∧
    (∀ (w : WatcherState) (k : String) (c : Nat),
      alookup w.file_positions k = none →
      alookup w.file_error_counts k = some c →
      alookup (get_file_state w) k = some ⟨0, 0, c⟩) := by
  constructor
  · intro w k
    set s := get_file_state w with hs
    have hnd : (s.map Prod.fst).Nodup := by
      rw [hs, keys_get_file_state]
      exact nodup_dedupPaths _
    set w2 := restore_file_state w s with hw2
    obtain ⟨hpos, hcnt⟩ := restore_lookups s w k hnd
    rw [← hw2] at hpos hcnt
    -- membership in the new union of keys is membership in the snapshot
    have hK : ∀ x : String,
        (x ∈ unionKeys (w2.file_positions.map Prod.fst)
              (w2.file_error_counts.map Prod.fst))
          ↔ x ∈ s.map Prod.fst := by
      intro x
      obtain ⟨hm1, hm2⟩ := restore_mem_keys s w x
      rw [← hw2] at hm1 hm2
      rw [mem_unionKeys, hm1, hm2]
      have hks : x ∈ s.map Prod.fst
          ↔ x ∈ unionKeys (w.file_positions.map Prod.fst)
                (w.file_error_counts.map Prod.fst) := by
        rw [hs, keys_get_file_state]
      rw [hks, mem_unionKeys]
      tauto
    rw [alookup_get_file_state]
    by_cases hmem : k ∈ s.map Prod.fst
    · rw [if_pos ((hK k).mpr hmem)]
      -- the snapshot binds k; read its entry
      have hmemK : k ∈ unionKeys (w.file_positions.map Prod.fst)
          (w.file_error_counts.map Prod.fst) := by
        have := hmem
        rwa [hs, keys_get_file_state] at this
      have hsk : alookup s k = some (snapshotEntry w k) := by
        rw [hs, alookup_get_file_state, if_pos hmemK]
      rw [hsk] at hpos hcnt
      rw [hsk]
      congr 1
      show snapshotEntry w2 k = snapshotEntry w k
      rw [snapshotEntry, hpos, hcnt]
      rfl
    · rw [if_neg (fun h => hmem ((hK k).mp h))]
      have hsk : alookup s k = none :=
        alookup_eq_none_of_not_mem _ _ hmem
      rw [hsk]
  · intro w k c hpos hcnt
    have hmem : k ∈ unionKeys (w.file_positions.map Prod.fst)
        (w.file_error_counts.map Prod.fst) :=
      (mem_unionKeys _ _ _).mpr (Or.inr (mem_of_alookup_eq_some _ _ _ hcnt))
    rw [alookup_get_file_state, if_pos hmem]
    rw [snapshotEntry, hpos, hcnt]
    rfl

/-- Closed instance of C10: a concrete watcher whose counts know a
path that its positions do not; the round trip preserves the snapshot
lookup and the count-only path reads back as (0, 0, count). -/
theorem C10_witness :
    (alookup
        (get_file_state (restore_file_state
          { emptyWatcher with
            file_positions := [(("/a.log"), (7, 3))],
            file_error_counts := [(("/b.log"), 4)] }
          (get_file_state
            { emptyWatcher with
              file_positions := [(("/a.log"), (7, 3))],
              file_error_counts := [(("/b.log"), 4)] })))
        ("/b.log")
      = alookup
          (get_file_state
            { emptyWatcher with
              file_positions := [(("/a.log"), (7, 3))],
              file_error_counts := [(("/b.log"), 4)] })
          ("/b.log")) ∧
    alookup
        (get_file_state
          { emptyWatcher with
            file_positions := [(("/a.log"), (7, 3))],
            file_error_counts := [(("/b.log"), 4)] })
        ("/b.log")
      = some ⟨0, 0, 4⟩ :=
  ⟨C10_file_state_roundtrip.1 _ _,
   C10_file_state_roundtrip.2 _ _ 4 (by decide) (by decide)⟩

/-! ## Claim C9: the scanner's done callback -/

/-- checkRunning never touches the found counter or the event trace. -/
theorem checkRunning_preserves (s : ScanSt) :
    (checkRunning s).2.found = s.found ∧ (checkRunning s).2.events = s.events := by
  rw [checkRunning]
  rcases s with ⟨cl, f, e⟩
  cases cl with
  | none => exact ⟨rfl, rfl⟩
  | some n => cases n <;> exact ⟨rfl, rfl⟩

mutual
/-- Along one entry, the found counter advances exactly with the
emitted found events, and no done event is emitted. -/
theorem scanEntry_sync (e : FsEntry) (s : ScanSt) :
    (scanEntry e s).found + countFound s.events
      = countFound (scanEntry e s).events + s.found ∧
    (scanEntry e s).events.countP isDoneEv = s.events.countP isDoneEv := by
  cases e with
  | ffile path isLog =>
      cases isLog <;>
        refine ⟨?_, ?_⟩ <;>
          simp [scanEntry, countFound, List.countP_cons, isFoundEv, isDoneEv] <;> omega
  | fbroken path =>
      refine ⟨?_, ?_⟩
      · simp only [scanEntry]
        omega
      · rw [scanEntry]
  | fdir name denied entries =>
      rw [scanEntry]
      by_cases hskip : skipDirName name = true
      · simp only [hskip, if_true]
        exact ⟨by omega, by trivial⟩
      · simp only [hskip, Bool.false_eq_true, if_false]
        cases denied with
        | true =>
            simp only [Bool.false_eq_true, if_false, if_true]
            exact ⟨by omega, by trivial⟩
        | false =>
            simp only [Bool.false_eq_true, if_false]
            exact scanDirectoryM_sync entries s

theorem scanDirEntries_sync (es : List FsEntry) (s : ScanSt) :
    (scanDirEntries es s).found + countFound s.events
      = countFound (scanDirEntries es s).events + s.found ∧
    (scanDirEntries es s).events.countP isDoneEv = s.events.countP isDoneEv := by
  cases es with
  | nil =>
      rw [scanDirEntries]
      exact ⟨by omega, rfl⟩
  | cons e es =>
      rw [scanDirEntries]
      obtain ⟨hp1, hp2⟩ := checkRunning_preserves s
      cases hr : (checkRunning s).1 with
      | false =>
          simp only [Bool.false_eq_true, if_false]
          rw [hp1, hp2]
          exact ⟨by omega, rfl⟩
      | true =>
          simp only [if_true]
          obtain ⟨h1, h2⟩ := scanEntry_sync e (checkRunning s).2
          obtain ⟨h3, h4⟩ := scanDirEntries_sync es (scanEntry e (checkRunning s).2)
          rw [hp1] at h1
          rw [hp2] at h1
          rw [hp2] at h2
          refine ⟨by omega, by rw [h4, h2]⟩

theorem scanDirectoryM_sync (entries : List FsEntry) (s : ScanSt) :
    (scanDirectoryM entries s).found + countFound s.events
      = countFound (scanDirectoryM entries s).events + s.found ∧
    (scanDirectoryM entries s).events.countP isDoneEv = s.events.countP isDoneEv := by
  rw [scanDirectoryM]
  obtain ⟨hp1, hp2⟩ := checkRunning_preserves s
  cases hr : (checkRunning s).1 with
  | false =>
      simp only [Bool.false_eq_true, if_false]
      rw [hp1, hp2]
      exact ⟨by omega, rfl⟩
  | true =>
      simp only [if_true]
      obtain ⟨h1, h2⟩ :=
        scanDirEntries_sync entries
          ⟨(checkRunning s).2.checksLeft, (checkRunning s).2.found,
            ScanEvent.progressEv :: (checkRunning s).2.events⟩
      dsimp only at h1 h2
      simp only [hp1, hp2] at h1 h2 ⊢
      have hcf : countFound (ScanEvent.progressEv :: s.events) = countFound s.events := by
        simp [countFound, List.countP_cons, isFoundEv]
      have hcd : List.countP isDoneEv (ScanEvent.progressEv :: s.events)
          = List.countP isDoneEv s.events := by
        simp [List.countP_cons, isDoneEv]
      rw [hcf] at h1
      rw [hcd] at h2
      exact ⟨h1, h2⟩
end

/-- C9: for every directory tree, every stop schedule (budget of
running-flag checks that still observe true) and every
exception-escape point, the scan loop's emitted callback trace
contains exactly one done invocation, it is the final invocation, and
its argument is the number of found invocations that were made. -/
theorem C9_done_exactly_once (entries : List FsEntry) (budget : Option Nat)
    (cut : Option Nat) :
    (scan_loop entries budget cut).countP isDoneEv = 1 ∧
    (scan_loop entries budget cut).getLast?
      = some (ScanEvent.doneEv (countFound ((scan_loop entries budget cut).dropLast))) := by
  obtain ⟨hsync, hnodone⟩ :=
    scanDirectoryM_sync entries ⟨budget, 0, [ScanEvent.progressEv]⟩
  have hnodone2 :
      (scanDirectoryM entries ⟨budget, 0, [ScanEvent.progressEv]⟩).events.countP isDoneEv
        = 0 := by
    simpa [List.countP_cons, isDoneEv] using hnodone
  have hsync2 :
      (scanDirectoryM entries ⟨budget, 0, [ScanEvent.progressEv]⟩).found
        = (scanDirectoryM entries ⟨budget, 0, [ScanEvent.progressEv]⟩).events.countP
            isFoundEv := by
    simpa [countFound, List.countP_cons, isFoundEv] using hsync
  rw [scan_loop.eq_def]
  dsimp only
  cases cut with
  | none =>
      refine ⟨?_, ?_⟩
      · simp [List.countP_append, List.countP_reverse, hnodone2, List.countP_cons,
          isDoneEv]
      · rw [List.getLast?_concat, List.dropLast_concat]
        have hrev :
            countFound
              (scanDirectoryM entries
                ⟨budget, 0, [ScanEvent.progressEv]⟩).events.reverse
              = (scanDirectoryM entries ⟨budget, 0, [ScanEvent.progressEv]⟩).found := by
          rw [countFound, List.countP_reverse, hsync2]
        rw [hrev]
  | some k =>
      have hkeptDone :
          (List.take k
            (scanDirectoryM entries
              ⟨budget, 0, [ScanEvent.progressEv]⟩).events.reverse).countP isDoneEv
            = 0 := by
        have hsub :
            (List.take k
              (scanDirectoryM entries
                ⟨budget, 0, [ScanEvent.progressEv]⟩).events.reverse).Sublist
              (scanDirectoryM entries
                ⟨budget, 0, [ScanEvent.progressEv]⟩).events.reverse :=
          List.take_sublist _ _
        have hle := hsub.countP_le isDoneEv
        rw [List.countP_reverse, hnodone2] at hle
        omega
      refine ⟨?_, ?_⟩
      · simp [List.countP_append, hkeptDone, List.countP_cons, isDoneEv]
      · rw [List.getLast?_concat, List.dropLast_concat]

/-! ## Claim C3: checking an unchanged file twice is a no-op -/

theorem aset_aset_same {κ α : Type} [DecidableEq κ] (m : List (κ × α)) (k : κ) (v v' : α) :
    aset (aset m k v) k v' = aset m k v' := by
  induction m with
  | nil => simp [aset]
  | cons kv m ih =>
      obtain ⟨k1, v1⟩ := kv
      by_cases h : k1 = k <;> simp [aset, h, ih]

theorem clearBufferIfPresent_positions (w : WatcherState) (p : String) :
    (clearBufferIfPresent w p).file_positions = w.file_positions := by
  rw [clearBufferIfPresent]
  split <;> rfl

theorem clearBufferIfPresent_counts (w : WatcherState) (p : String) :
    (clearBufferIfPresent w p).file_error_counts = w.file_error_counts := by
  rw [clearBufferIfPresent]
  split <;> rfl

theorem clearBufferIfPresent_idem (w : WatcherState) (p : String) :
    clearBufferIfPresent (clearBufferIfPresent w p) p = clearBufferIfPresent w p := by
  by_cases h : (alookup w.file_matched_lines p).isSome = true
  · have hw1 : clearBufferIfPresent w p
        = { w with file_matched_lines := aset w.file_matched_lines p [] } := by
      rw [clearBufferIfPresent, if_pos h]
    rw [hw1, clearBufferIfPresent]
    have hsome : (alookup
        ({ w with file_matched_lines := aset w.file_matched_lines p [] }
          : WatcherState).file_matched_lines p).isSome = true := by
      show (alookup (aset w.file_matched_lines p []) p).isSome = true
      rw [alookup_aset_self]
      rfl
    rw [if_pos hsome]
    show ({ w with file_matched_lines := aset (aset w.file_matched_lines p []) p [] }
        : WatcherState) = _
    rw [aset_aset_same]
  · have hw1 : clearBufferIfPresent w p = w := by
      rw [clearBufferIfPresent, if_neg h]
    rw [hw1, clearBufferIfPresent, if_neg h]

/-- The check loop never moves the file cursor. -/
theorem processCheckLines_positions (ls : List (List Char)) :
    ∀ (w : WatcherState) (p : String) (n : Nat),
      (processCheckLines w p n ls).1.file_positions = w.file_positions := by
  induction ls with
  | nil => intro w p n; rfl
  | cons l ls ih =>
      intro w p n
      rw [processCheckLines]
      dsimp only
      split
      · split
        · dsimp only
          rw [ih]
          rfl
        · rw [ih]
      · rw [ih]

/-- C3: calling the file check twice with no intervening change to
the file system emits no match events on the second call and leaves
the whole watcher state — cursor, counts, matched-line buffer —
exactly as after the first call. -/
theorem C3_check_twice_noop (fs : FS) (w : WatcherState) (p : String) :
    (check_file fs (check_file fs w p).1 p).2 = [] ∧
    (check_file fs (check_file fs w p).1 p).1 = (check_file fs w p).1 := by
  rcases hfd : alookup fs p with _ | fd
  · constructor <;> simp [check_file, hfd]
  · rcases hpm : alookup w.file_positions p with _ | pm
    · -- first sight of the path: the cursor is set to the end of file
      have h1 : check_file fs w p
          = ((if (alookup w.file_error_counts p).isSome = true
              then ({ w with
                      file_positions :=
                        aset w.file_positions p (fd.content.length, fd.mtime) }
                    : WatcherState)
              else ({ w with
                      file_positions :=
                        aset w.file_positions p (fd.content.length, fd.mtime),
                      file_error_counts := aset w.file_error_counts p 0 }
                    : WatcherState)), []) := by
        simp only [check_file, hfd, hpm]
      rw [h1]
      have hpos2 : ∀ w' : WatcherState,
          w'.file_positions = aset w.file_positions p (fd.content.length, fd.mtime) →
          check_file fs w' p = (w', []) := by
        intro w' hw'
        have hlook : alookup w'.file_positions p = some (fd.content.length, fd.mtime) := by
          rw [hw', alookup_aset_self]
        simp [check_file, hfd, hlook]
      split
      · refine ⟨?_, ?_⟩ <;> rw [hpos2 _ rfl]
      · refine ⟨?_, ?_⟩ <;> rw [hpos2 _ rfl]
    · by_cases hb : (fd.mtime == pm.2 && fd.content.length == pm.1) = true
      · -- unchanged file: both calls return immediately
        have h1 : check_file fs w p = (w, []) := by
          simp only [check_file, hfd, hpm, hb, if_true]
        rw [h1]
        rw [h1]
        exact ⟨rfl, rfl⟩
      · by_cases htr : fd.content.length < pm.1
        · -- rotation/truncation: the cursor rewinds to 0
          by_cases hz : (fd.content.length == 0) = true
          · -- nothing to read after the rewind: only the buffer is cleared
            have h1 : check_file fs w p = (clearBufferIfPresent w p, []) := by
              simp only [check_file, hfd, hpm, hb, htr, hz, if_true, if_false,
                Bool.false_eq_true, ite_true, ite_false]
            rw [h1]
            have hpm2 : alookup (clearBufferIfPresent w p).file_positions p = some pm := by
              rw [clearBufferIfPresent_positions, hpm]
            have h2 : check_file fs (clearBufferIfPresent w p) p
                = (clearBufferIfPresent (clearBufferIfPresent w p) p, []) := by
              simp only [check_file, hfd, hpm2, hb, htr, hz, if_true, if_false,
                Bool.false_eq_true, ite_true, ite_false]
            rw [h2, clearBufferIfPresent_idem]
            exact ⟨rfl, rfl⟩
          · -- full re-read from byte 0
            have hfinalpos :
                (check_file fs w p).1.file_positions
                  = aset w.file_positions p (fd.content.length, fd.mtime) := by
              simp only [check_file, hfd, hpm, hb, htr, hz, if_true, if_false,
                Bool.false_eq_true, ite_true, ite_false]
              rw [processCheckLines_positions]
              rw [clearBufferIfPresent_positions]
            have hlook : alookup (check_file fs w p).1.file_positions p
                = some (fd.content.length, fd.mtime) := by
              rw [hfinalpos, alookup_aset_self]
            generalize hW : (check_file fs w p).1 = W
            rw [hW] at hlook
            have h2 : check_file fs W p = (W, []) := by
              simp [check_file, hfd, hlook]
            rw [h2]
            exact ⟨rfl, rfl⟩
        · by_cases hz2 : (fd.content.length == pm.1) = true
          · -- same size, different mtime: nothing to read, nothing changes
            have h1 : check_file fs w p = (w, []) := by
              simp only [check_file, hfd, hpm, hb, htr, hz2, if_true, if_false,
                Bool.false_eq_true, ite_true, ite_false]
              split <;> rfl
            rw [h1, h1]
            exact ⟨rfl, rfl⟩
          · -- genuine growth: read from the saved position
            have hfinalpos :
                (check_file fs w p).1.file_positions
                  = aset w.file_positions p (fd.content.length, fd.mtime) := by
              simp only [check_file, hfd, hpm, hb, htr, hz2, if_true, if_false,
                Bool.false_eq_true, Bool.and_false, ite_true, ite_false]
              rw [processCheckLines_positions]
            have hlook : alookup (check_file fs w p).1.file_positions p
                = some (fd.content.length, fd.mtime) := by
              rw [hfinalpos, alookup_aset_self]
            generalize hW : (check_file fs w p).1 = W
            rw [hW] at hlook
            have h2 : check_file fs W p = (W, []) := by
              simp [check_file, hfd, hlook]
            rw [h2]
            exact ⟨rfl, rfl⟩

/-! ## Claim C2: what the truncation branch of _check_file does

The counterexample shows the cumulative match count is NOT reset to 0
on rotation; the amended theorem characterises the branch: the read
cursor rewinds to byte 0 (the whole content is re-scanned and the
cursor then records the new end of file), the matched-line buffer is
cleared and rebuilt from the re-read content alone, and the new
matches are added on top of the retained previous count. -/

/-- clearBufferIfPresent written as a single field update, so that
every other field of the result is a literal projection of `w`. -/
theorem clearBufferIfPresent_eq (w : WatcherState) (p : String) :
    clearBufferIfPresent w p
      = { w with file_matched_lines :=
            (if (alookup w.file_matched_lines p).isSome
             then aset w.file_matched_lines p []
             else w.file_matched_lines) } := by
  rw [clearBufferIfPresent]
  split
  · rfl
  · rfl

theorem get_matched_lines_add (w : WatcherState) (p : String) (n : Nat) (l : List Char)
    (ts : Option PDateTime) (mp : List (List Char)) :
    get_matched_lines (add_matched_line w p n l ts mp) p
      = dequeAppend (get_matched_lines w p) ⟨n, pyStrip l, ts, mp⟩ := by
  show (alookup (aset w.file_matched_lines p _) p).getD [] = _
  rw [alookup_aset_self]
  rfl

/-- The datetime filter only reads the configured range. -/
theorem is_in_datetime_range_congr (w w' : WatcherState)
    (h3 : w'.start_datetime = w.start_datetime)
    (h4 : w'.end_datetime = w.end_datetime) (ts : Option PDateTime) :
    is_in_datetime_range w' ts = is_in_datetime_range w ts := by
  cases ts with
  | none => rfl
  | some t => simp [is_in_datetime_range, beforeStart, afterEnd, h3, h4]

/-- A line's count contribution only reads the pattern and filter
configuration. -/
theorem lineDelta_congr (w w' : WatcherState)
    (h1 : w'.error_patterns = w.error_patterns)
    (h2 : w'.pattern_strings = w.pattern_strings)
    (h3 : w'.start_datetime = w.start_datetime)
    (h4 : w'.end_datetime = w.end_datetime) (l : List Char) :
    lineDelta w' l = lineDelta w l := by
  rw [lineDelta, lineDelta]
  rw [h1, h2, is_in_datetime_range_congr w w' h3 h4]

theorem linesMatchTotal_congr (w w' : WatcherState)
    (h1 : w'.error_patterns = w.error_patterns)
    (h2 : w'.pattern_strings = w.pattern_strings)
    (h3 : w'.start_datetime = w.start_datetime)
    (h4 : w'.end_datetime = w.end_datetime) (ls : List (List Char)) :
    linesMatchTotal w' ls = linesMatchTotal w ls := by
  rw [linesMatchTotal, linesMatchTotal]
  have hfun : lineDelta w' = lineDelta w := funext (lineDelta_congr w w' h1 h2 h3 h4)
  rw [hfun]

theorem checkEntries_congr (w w' : WatcherState)
    (h1 : w'.error_patterns = w.error_patterns)
    (h2 : w'.pattern_strings = w.pattern_strings)
    (h3 : w'.start_datetime = w.start_datetime)
    (h4 : w'.end_datetime = w.end_datetime) :
    ∀ (ls : List (List Char)) (n : Nat), checkEntries w' n ls = checkEntries w n ls := by
  intro ls
  induction ls with
  | nil => intro n; rfl
  | cons l ls ih =>
      intro n
      rw [checkEntries, checkEntries]
      rw [h1, h2, is_in_datetime_range_congr w w' h3 h4]
      split
      · split
        · rw [ih]
        · rw [ih]
      · rw [ih]

/-- The check loop adds exactly the per-line totals to a file's
existing count. -/
theorem processCheckLines_count (ls : List (List Char)) :
    ∀ (w : WatcherState) (p : String) (n : Nat) (c0 : Nat),
      alookup w.file_error_counts p = some c0 →
      alookup (processCheckLines w p n ls).1.file_error_counts p
        = some (c0 + linesMatchTotal w ls) := by
  induction ls with
  | nil =>
      intro w p n c0 h
      simpa [linesMatchTotal] using h
  | cons l ls ih =>
      intro w p n c0 h
      rw [processCheckLines]
      dsimp only
      by_cases h1 : (count_matches w.error_patterns w.pattern_strings l).1 > 0
      · by_cases h2 : is_in_datetime_range w (parse_log_timestamp l) = true
        · simp only [if_pos h1, if_pos h2]
          have hc2 : alookup
              (add_matched_line
                (bumpCount w p (count_matches w.error_patterns w.pattern_strings l).1)
                p n l (parse_log_timestamp l)
                (count_matches w.error_patterns w.pattern_strings l).2).file_error_counts
              p
              = some (c0 + (count_matches w.error_patterns w.pattern_strings l).1) := by
            show alookup (aset w.file_error_counts p
              ((alookup w.file_error_counts p).getD 0
                + (count_matches w.error_patterns w.pattern_strings l).1)) p = _
            rw [h, alookup_aset_self]
            rfl
          rw [ih _ p (n + 1) _ hc2]
          rw [linesMatchTotal_congr w
            (add_matched_line
              (bumpCount w p (count_matches w.error_patterns w.pattern_strings l).1)
              p n l (parse_log_timestamp l)
              (count_matches w.error_patterns w.pattern_strings l).2)
            rfl rfl rfl rfl ls]
          congr 1
          simp only [linesMatchTotal, lineDelta, List.map_cons, List.sum_cons,
            if_pos h1, if_pos h2]
          omega
        · simp only [if_pos h1, if_neg h2]
          rw [ih _ p (n + 1) _ h]
          congr 1
          simp only [linesMatchTotal, lineDelta, List.map_cons, List.sum_cons,
            if_pos h1, if_neg h2]
          omega
      · simp only [if_neg h1]
        rw [ih _ p (n + 1) _ h]
        congr 1
        simp only [linesMatchTotal, lineDelta, List.map_cons, List.sum_cons,
          if_neg h1]
        omega

/-- The check loop folds its entries into the file's buffer with the
bounded-deque append. -/
theorem processCheckLines_buffer (ls : List (List Char)) :
    ∀ (w : WatcherState) (p : String) (n : Nat),
      get_matched_lines (processCheckLines w p n ls).1 p
        = (checkEntries w n ls).foldl dequeAppend (get_matched_lines w p) := by
  induction ls with
  | nil => intro w p n; rfl
  | cons l ls ih =>
      intro w p n
      rw [processCheckLines, checkEntries]
      dsimp only
      by_cases h1 : (count_matches w.error_patterns w.pattern_strings l).1 > 0
      · by_cases h2 : is_in_datetime_range w (parse_log_timestamp l) = true
        · simp only [if_pos h1, if_pos h2]
          rw [ih _ p (n + 1)]
          rw [get_matched_lines_add]
          rw [List.foldl_cons]
          rw [checkEntries_congr w
            (add_matched_line
              (bumpCount w p (count_matches w.error_patterns w.pattern_strings l).1)
              p n l (parse_log_timestamp l)
              (count_matches w.error_patterns w.pattern_strings l).2)
            rfl rfl rfl rfl ls (n + 1)]
          rfl
        · simp only [if_pos h1, if_neg h2]
          exact ih _ p (n + 1)
      · simp only [if_neg h1]
        exact ih _ p (n + 1)

/-- C2 counterexample: a tracked file whose on-disk size (16) is
smaller than the saved offset (100) — the claim's premise — but whose
cumulative error count (5) is NOT reset to 0 by the incremental
check: it remains 5. -/
theorem C2_counterexample :
    alookup c2FS c2Path = some c2File ∧
    alookup c2Watcher.file_positions c2Path = some (100, 1) ∧
    c2File.content.length < 100 ∧
    alookup ((check_file c2FS c2Watcher c2Path).1).file_error_counts c2Path = some 5 ∧
    ¬ alookup ((check_file c2FS c2Watcher c2Path).1).file_error_counts c2Path
        = some 0 := by
  refine ⟨rfl, rfl, by decide, by decide, by decide⟩

/-- A truncation clear leaves the file with an empty buffer,
whether or not a buffer existed. -/
theorem get_matched_lines_clear (w : WatcherState) (p : String) :
    get_matched_lines (clearBufferIfPresent w p) p = [] := by
  rw [clearBufferIfPresent]
  by_cases h : (alookup w.file_matched_lines p).isSome = true
  · rw [if_pos h]
    show (alookup (aset w.file_matched_lines p []) p).getD [] = []
    rw [alookup_aset_self]
    rfl
  · rw [if_neg h]
    show (alookup w.file_matched_lines p).getD [] = []
    rcases hml : alookup w.file_matched_lines p with _ | v
    · rfl
    · rw [hml] at h
      exact absurd rfl h

/-- C2 amended: in the incremental check path, whenever the current
on-disk size is smaller than the saved byte offset the file is
treated as rotated/truncated: the read cursor resets to 0 and the
matched-line buffer is cleared — it then holds only the entries
produced by re-reading the content from offset 0, none when the file
is now empty — but the cumulative match count is NOT reset to 0: the
matches of the re-read content are added onto the retained previous
count.  The stored cursor becomes the new end of file when there is
content to re-read; on truncation to empty the branch returns early
and the stored cursor is left untouched. -/
theorem C2_truncation_behaviour (fs : FS) (w : WatcherState) (p : String) (fd : FileData)
    (pos : Nat) (mt : Int) (c0 : Nat)
    (hfd : alookup fs p = some fd)
    (hpos : alookup w.file_positions p = some (pos, mt))
    (hlt : fd.content.length < pos)
    (hc0 : alookup w.file_error_counts p = some c0) :
    alookup (check_file fs w p).1.file_error_counts p
      = some (c0 + linesMatchTotal w (splitlinesPy fd.content)) ∧
    get_matched_lines (check_file fs w p).1 p
      = (checkEntries w 1 (splitlinesPy fd.content)).foldl dequeAppend [] ∧
    alookup (check_file fs w p).1.file_positions p
      = (if fd.content.length = 0 then some (pos, mt)
         else some (fd.content.length, fd.mtime)) := by
  have hb2 : (fd.content.length == pos) = false :=
    beq_eq_false_iff_ne.mpr (Nat.ne_of_lt hlt)
  by_cases hzero : fd.content.length = 0
  · -- truncation to empty: after the buffer clear, size equals the
    -- rewound cursor and the branch returns without storing it
    have hznil : fd.content = [] := List.length_eq_zero.mp hzero
    have hzb : (fd.content.length == 0) = true := by
      rw [hzero]
      decide
    have hred0 : check_file fs w p = (clearBufferIfPresent w p, []) := by
      simp only [check_file, hfd, hpos, hb2, Bool.and_false, Bool.false_eq_true,
        if_false, hlt, if_true, hzb, ite_true, ite_false]
    rw [hred0]
    refine ⟨?_, ?_, ?_⟩
    · show alookup (clearBufferIfPresent w p).file_error_counts p = _
      rw [clearBufferIfPresent_counts, hc0, hznil]
      rfl
    · rw [hznil, get_matched_lines_clear]
      rfl
    · rw [if_pos hzero]
      show alookup (clearBufferIfPresent w p).file_positions p = some (pos, mt)
      rw [clearBufferIfPresent_positions, hpos]
  · -- content remains: full re-read from byte 0
    have hz : (fd.content.length == 0) = false :=
      beq_eq_false_iff_ne.mpr hzero
    have hred : check_file fs w p
        = processCheckLines
            { w with
              file_matched_lines :=
                (if (alookup w.file_matched_lines p).isSome
                 then aset w.file_matched_lines p []
                 else w.file_matched_lines),
              file_positions :=
                aset (clearBufferIfPresent w p).file_positions p
                  (fd.content.length, fd.mtime) }
            p ((fd.content.take 0).countP (fun c => c == '\n') + 1)
            (splitlinesPy (fd.content.drop 0)) := by
      simp only [check_file, hfd, hpos, hb2, Bool.and_false, Bool.false_eq_true,
        if_false, hlt, if_true, hz, ite_true, ite_false]
      rw [clearBufferIfPresent_eq]
    rw [hred]
    set W2 : WatcherState :=
      { w with
        file_matched_lines :=
          (if (alookup w.file_matched_lines p).isSome
           then aset w.file_matched_lines p []
           else w.file_matched_lines),
        file_positions :=
          aset (clearBufferIfPresent w p).file_positions p
            (fd.content.length, fd.mtime) } with hW2
    have hcfg1 : W2.error_patterns = w.error_patterns := by rw [hW2]
    have hcfg2 : W2.pattern_strings = w.pattern_strings := by rw [hW2]
    have hcfg3 : W2.start_datetime = w.start_datetime := by rw [hW2]
    have hcfg4 : W2.end_datetime = w.end_datetime := by rw [hW2]
    refine ⟨?_, ?_, ?_⟩
    · rw [processCheckLines_count _ _ p _ c0 ?hc]
      case hc =>
        rw [hW2]
        show alookup w.file_error_counts p = some c0
        exact hc0
      rw [linesMatchTotal_congr w W2 hcfg1 hcfg2 hcfg3 hcfg4
        (splitlinesPy (fd.content.drop 0))]
      rw [List.drop_zero]
    · rw [processCheckLines_buffer]
      rw [checkEntries_congr w W2 hcfg1 hcfg2 hcfg3 hcfg4
        (splitlinesPy (fd.content.drop 0)) _]
      have hbuf0 : get_matched_lines W2 p = [] := by
        rw [hW2]
        show (alookup
          (if (alookup w.file_matched_lines p).isSome
           then aset w.file_matched_lines p []
           else w.file_matched_lines) p).getD [] = []
        by_cases hsome : (alookup w.file_matched_lines p).isSome = true
        · rw [if_pos hsome, alookup_aset_self]
          rfl
        · rw [if_neg hsome]
          rcases hml : alookup w.file_matched_lines p with _ | v
          · rfl
          · rw [hml] at hsome
            exact absurd rfl hsome
      rw [hbuf0, List.drop_zero]
      rfl
    · rw [if_neg hzero]
      rw [processCheckLines_positions, hW2]
      show alookup (aset (clearBufferIfPresent w p).file_positions p _) p = _
      rw [alookup_aset_self]

/-- Closed instance of C2's amended theorem at the counterexample
configuration (truncation with non-empty new content): the count
becomes 5 plus the re-read total, the buffer holds exactly the
re-read entries, and the stored cursor moves to the new end of
file. -/
theorem C2_truncation_witness :
    alookup (check_file c2FS c2Watcher c2Path).1.file_error_counts c2Path
      = some (5 + linesMatchTotal c2Watcher (splitlinesPy c2File.content)) ∧
    get_matched_lines (check_file c2FS c2Watcher c2Path).1 c2Path
      = (checkEntries c2Watcher 1 (splitlinesPy c2File.content)).foldl dequeAppend [] ∧
    alookup (check_file c2FS c2Watcher c2Path).1.file_positions c2Path
      = (if c2File.content.length = 0 then some (100, 1)
         else some (c2File.content.length, c2File.mtime)) :=
  C2_truncation_behaviour c2FS c2Watcher c2Path c2File 100 1 5
    rfl rfl (by decide) rfl

end LogWatch
